import Mathlib

/-!
Shallow embedding of the shp2geojson converter (src/main.go) and proofs
about its geometry conversion, attribute assembly, and output phase.

Coordinates are modelled as exact integer values: the program copies
float64 coordinates verbatim (no rounding, no arithmetic other than the
ring-orientation shoelace sum), so the structural claims are independent
of the float representation; the shoelace sum follows the spec's exact
formula.
-/

abbrev Coord := ℤ

/-- shp.Point: a planar point of the legacy shapefile model. -/
structure ShpPoint where
  x : Coord
  y : Coord
deriving DecidableEq, Repr

/-- orb.Point: a coordinate pair of the target geometry model. -/
abbrev OrbPoint := Coord × Coord

/-- orb.LineString. -/
abbrev LineString := List OrbPoint

/-- orb.MultiLineString. -/
abbrev MultiLineString := List LineString

/-- orb.Ring. -/
abbrev OrbRing := List OrbPoint

/-- orb.Polygon: an ordered sequence of rings, first = outer. -/
abbrev OrbPolygon := List OrbRing

/-- orb.MultiPolygon. -/
abbrev MultiPolygon := List OrbPolygon

/-- shp.PolyLine: one or more open paths sharing one coordinate buffer. -/
structure PolyLine where
  numParts : Int
  numPoints : Int
  parts : List Int
  points : List ShpPoint
deriving DecidableEq, Repr

/-- shp.PolyLineZ: same layout as PolyLine plus an elevation per point. -/
structure PolyLineZ where
  numParts : Int
  numPoints : Int
  parts : List Int
  points : List ShpPoint
  zArray : List Coord
deriving DecidableEq, Repr

/-- shp.Polygon: physically identical layout to PolyLine; ring/hole
structure is implicit in ring orientation. -/
structure Polygon where
  numParts : Int
  numPoints : Int
  parts : List Int
  points : List ShpPoint
deriving DecidableEq, Repr

/-- shp.MultiPoint. -/
structure MultiPointShape where
  points : List ShpPoint
deriving DecidableEq, Repr

/-- The five legacy shape variants handled by ShapeToFeature's type switch. -/
inductive Shape where
  | point (p : ShpPoint)
  | polyLine (s : PolyLine)
  | polyLineZ (s : PolyLineZ)
  | polygon (s : Polygon)
  | multiPoint (s : MultiPointShape)
deriving DecidableEq, Repr

/-- An attribute value as read from the dbf record. -/
inductive AttrValue where
  | str (s : String)
  | num (n : Int)
  | boolean (b : Bool)
  | null
  | date (d : String)
deriving DecidableEq, Repr

/-- shp.Attribute: a named attribute value for one record. -/
structure Attribute where
  name : String
  value : AttrValue
deriving DecidableEq, Repr

/-- orb.Geometry: the target geometry union.  `nilGeometry` models the
nil `orb.Geometry` interface value left when no branch assigns (a
PolyLine/PolyLineZ with fewer than one part). -/
inductive Geometry where
  | nilGeometry
  | point (p : OrbPoint)
  | lineString (l : LineString)
  | multiLineString (m : MultiLineString)
  | multiPolygon (m : MultiPolygon)
  | multiPoint (m : List OrbPoint)
deriving DecidableEq, Repr

/-- geojson.Feature: a geometry plus a properties map, modelled as an
association list with Go-map assignment semantics (insert or overwrite). -/
structure Feature where
  geometry : Geometry
  properties : List (String × AttrValue)
deriving DecidableEq, Repr

/-- convertPoint: identity copy of the two coordinate fields. -/
def convertPoint (s : ShpPoint) : OrbPoint := (s.x, s.y)

/-- convertLineString: the append loop `for _, p := range s.Points`. -/
def convertLineString (s : PolyLine) : LineString :=
  s.points.foldl (fun g p => g ++ [convertPoint p]) []

/-- convertLineStringZ: identical loop over a PolyLineZ's planar points;
the elevation array is never consulted. -/
def convertLineStringZ (s : PolyLineZ) : LineString :=
  s.points.foldl (fun g p => g ++ [convertPoint p]) []

/-- convertMultiPoint. -/
def convertMultiPoint (s : MultiPointShape) : List OrbPoint :=
  s.points.foldl (fun g p => g ++ [convertPoint p]) []

/-- The end index of part `i`: `s.Parts[i+1]` for all but the last part,
`s.NumPoints` for the last (`if int32(i) < s.NumParts-1`). -/
def partEnd (numParts numPoints : Int) (parts : List Int) (i : Nat) : Int :=
  if (i : Int) < numParts - 1 then parts.getD (i + 1) 0 else numPoints

/-- Go slice `s.Points[start:end]` (for in-range indices). -/
def slicePoints (points : List ShpPoint) (start fin : Int) : List ShpPoint :=
  (points.drop start.toNat).take (fin - start).toNat

/-- convertMultiLineString: `for i, start := range s.Parts`, slicing the
shared point buffer at each part boundary into one LineString. -/
def convertMultiLineString (s : PolyLine) : MultiLineString :=
  s.parts.enum.foldl
    (fun g is =>
      g ++ [(slicePoints s.points is.2
               (partEnd s.numParts s.numPoints s.parts is.1)).foldl
              (fun l p => l ++ [convertPoint p]) []])
    []

/-- convertMultiLineStringZ: textually the same loop over a PolyLineZ. -/
def convertMultiLineStringZ (s : PolyLineZ) : MultiLineString :=
  s.parts.enum.foldl
    (fun g is =>
      g ++ [(slicePoints s.points is.2
               (partEnd s.numParts s.numPoints s.parts is.1)).foldl
              (fun l p => l ++ [convertPoint p]) []])
    []

/-- orb.CCW. -/
def orbCCW : Int := 1

/-- orb.CW. -/
def orbCW : Int := -1

/-- Modelled from the spec: the orb geometry library's ring orientation
(`orb.Ring.Orientation`) is not part of this repository; the spec pins it
down by the shoelace formula — "sum of `(x_i * y_{i+1} - x_{i+1} * y_i)`;
negative sum ⇒ clockwise" — over the cyclic sequence of ring points. -/
def shoelace (r : OrbRing) : ℤ :=
  ((r.zip (r.rotate 1)).map (fun pq => pq.1.1 * pq.2.2 - pq.2.1 * pq.1.2)).sum

/-- Modelled from the spec: orientation is the sign of the shoelace sum;
positive ⇒ counter-clockwise (orbCCW), negative ⇒ clockwise (orbCW),
zero ⇒ degenerate. -/
def ringOrientation (r : OrbRing) : Int :=
  if 0 < shoelace r then orbCCW else if shoelace r < 0 then orbCW else 0

/-- One iteration of convertMultiPolygon's loop body: extract ring `i`,
then either seed the first polygon-in-progress (i = 0), close the current
polygon on a clockwise ring, or append a hole. -/
def polyStep (s : Polygon) (acc : MultiPolygon × OrbPolygon) (is : Nat × Int) :
    MultiPolygon × OrbPolygon :=
  let fin := partEnd s.numParts s.numPoints s.parts is.1
  let r : OrbRing :=
    (slicePoints s.points is.2 fin).foldl (fun l p => l ++ [convertPoint p]) []
  if is.1 = 0 then (acc.1, acc.2 ++ [r])
  else if ringOrientation r = orbCW then (acc.1 ++ [acc.2], [r])
  else (acc.1, acc.2 ++ [r])

/-- convertMultiPolygon: the single left-to-right scan over the parts.
Faithful to the source: after the loop only `g` is returned — the final
polygon-in-progress `poly` is NOT appended. -/
def convertMultiPolygon (s : Polygon) : MultiPolygon :=
  (s.parts.enum.foldl (polyStep s) ([], [])).1

/-- The scan state (finished polygons, polygon-in-progress) after the
first `k` rings have been processed. -/
def scanState (s : Polygon) (k : Nat) : MultiPolygon × OrbPolygon :=
  (s.parts.enum.take k).foldl (polyStep s) ([], [])

/-- Ring `i` of a polygon shape: the slice of the shared point buffer
between part boundary `i` and the next, converted pointwise. -/
def ringAt (s : Polygon) (i : Nat) : OrbRing :=
  (slicePoints s.points (s.parts.getD i 0)
    (partEnd s.numParts s.numPoints s.parts i)).map convertPoint

/-- The geometry branch of ShapeToFeature's type switch. -/
def convertGeometry : Shape → Geometry
  | .point p => .point (convertPoint p)
  | .polyLine s =>
      if s.numParts = 1 then .lineString (convertLineString s)
      else if 1 < s.numParts then .multiLineString (convertMultiLineString s)
      else .nilGeometry
  | .polyLineZ s =>
      if s.numParts = 1 then .lineString (convertLineStringZ s)
      else if 1 < s.numParts then .multiLineString (convertMultiLineStringZ s)
      else .nilGeometry
  | .polygon s => .multiPolygon (convertMultiPolygon s)
  | .multiPoint s => .multiPoint (convertMultiPoint s)

/-- Go map assignment `m[k] = v`: overwrite an existing key, else insert. -/
def insertProp (m : List (String × AttrValue)) (k : String) (v : AttrValue) :
    List (String × AttrValue) :=
  if m.any (fun p => p.1 = k) then
    m.map (fun p => if p.1 = k then (k, v) else p)
  else m ++ [(k, v)]

/-- Map lookup on the properties association list. -/
def propLookup (k : String) (m : List (String × AttrValue)) : Option AttrValue :=
  (m.find? (fun p => p.1 = k)).map (fun p => p.2)

/-- ShapeToFeature: convert the shape, then fill the properties map with
`f.Properties[attr.Name()] = attr.Value()` for each collected attribute. -/
def ShapeToFeature (shape : Shape) (attrs : List Attribute) : Feature :=
  { geometry := convertGeometry shape
    properties := attrs.foldl (fun m a => insertProp m a.name a.value) [] }

/-- main's attribute-collection loop for one record: read each declared
field; a nil result (decode failure) is skipped, everything else is
appended. `ra k` is `reader.ReadAttribute(n, k)` for field index `k`. -/
def collectAttrs (ra : Nat → Option Attribute) (numFields : Nat) : List Attribute :=
  (List.range numFields).foldl
    (fun acc k => match ra k with
      | some a => acc ++ [a]
      | none => acc)
    []

/-- The outcome of a run: normal exit or `log.Fatalln` (diagnostic message
and non-zero exit status). -/
inductive RunOutcome where
  | ok
  | fatal (msg : String)
deriving DecidableEq, Repr

/-- Whether the outcome is a fatal termination. -/
def RunOutcome.isFatal : RunOutcome → Bool
  | .ok => false
  | .fatal _ => true

/-- The two kinds of sink getOutput can return. -/
inductive Sink where
  | stdout
  | file
deriving DecidableEq, Repr

/-- getOutput: "-" or the empty string select stdout (cannot fail);
otherwise the result of os.OpenFile, modelled by `openFileResult`. -/
def getOutput (output : String) (openFileResult : Except String Sink) :
    Except String Sink :=
  if output = "" || output = "-" then Except.ok Sink.stdout else openFileResult

/-- main's output phase (src/main.go lines 59-76): open the sink, then
either encode the whole collection (non-ndjson mode, error is fatal) or
encode each feature in turn (ndjson mode, where the error returned by
`encoder.Encode(feature)` is discarded and the loop continues). The
environment parameters model the I/O outcomes: `encodeCollectionErr` is
the error from encoding the collection document, `encodeFeatureErr i` the
error from encoding feature `i`. -/
def outputPhase (outputPath : String) (openFileResult : Except String Sink)
    (ndjson pretty : Bool) (encodeCollectionErr : Option String)
    (encodeFeatureErr : Nat → Option String) (numFeatures : Nat) : RunOutcome :=
  match getOutput outputPath openFileResult with
  | .error e => .fatal e
  | .ok _ =>
    if !ndjson then
      match encodeCollectionErr with
      | some e => .fatal e
      | none => .ok
    else
      .ok

/-! ### Helper lemmas about the loop encodings -/

/-- A Go append loop is a `map`. -/
theorem foldl_append_map {α β : Type} (f : α → β) (l : List α) (init : List β) :
    l.foldl (fun g p => g ++ [f p]) init = init ++ l.map f := by
  induction l generalizing init with
  | nil => simp
  | cons a t ih => simp [ih]

/-- Folding over one more element of a list prefix. -/
theorem foldl_take_succ {α β : Type} (f : β → α → β) (l : List α) (k : Nat) (x : α)
    (hx : l.get? k = some x) (b : β) :
    (l.take (k + 1)).foldl f b = f ((l.take k).foldl f b) x := by
  rw [List.get?_eq_getElem?] at hx
  rw [List.take_succ, hx]
  simp

/-- Unfolding one step of the polygon ring-grouping scan. -/
theorem scanState_succ (s : Polygon) (k : Nat) (x : Int)
    (hx : s.parts.get? k = some x) :
    scanState s (k + 1) = polyStep s (scanState s k) (k, x) := by
  unfold scanState
  apply foldl_take_succ
  rw [List.get?_eq_getElem?] at hx ⊢
  rw [List.getElem?_enum, hx]
  rfl

/-- The converter is the scan run over all rings, keeping only the
finished polygons and discarding the in-progress one. -/
theorem convertMultiPolygon_eq_scanState (s : Polygon) :
    convertMultiPolygon s = (scanState s s.parts.length).1 := by
  unfold convertMultiPolygon scanState
  rw [← List.enum_length, List.take_length]

/-- The ring built inside the loop body is `ringAt`. -/
theorem polyStep_eq (s : Polygon) (acc : MultiPolygon × OrbPolygon) (i : Nat) :
    polyStep s acc (i, s.parts.getD i 0) =
      if i = 0 then (acc.1, acc.2 ++ [ringAt s i])
      else if ringOrientation (ringAt s i) = orbCW then (acc.1 ++ [acc.2], [ringAt s i])
      else (acc.1, acc.2 ++ [ringAt s i]) := by
  simp [polyStep, ringAt, foldl_append_map]

/-! ### Concrete polygon shapes used by the counterexamples and witnesses -/

/-- A polygon shape holding a single clockwise square ring. -/
def cwSquare : Polygon :=
  { numParts := 1, numPoints := 5, parts := [0],
    points := [⟨0,0⟩, ⟨0,4⟩, ⟨4,4⟩, ⟨4,0⟩, ⟨0,0⟩] }

/-- A polygon shape with three rings: clockwise ring A, counter-clockwise
hole inside A, clockwise ring B. -/
def threeRings : Polygon :=
  { numParts := 3, numPoints := 15, parts := [0, 5, 10],
    points := [⟨0,0⟩, ⟨0,4⟩, ⟨4,4⟩, ⟨4,0⟩, ⟨0,0⟩,
               ⟨1,1⟩, ⟨2,1⟩, ⟨2,2⟩, ⟨1,2⟩, ⟨1,1⟩,
               ⟨10,0⟩, ⟨10,4⟩, ⟨14,4⟩, ⟨14,0⟩, ⟨10,0⟩] }

/-- Claim C1: the claim states that after the scan the final
polygon-in-progress is appended, so a single clockwise ring yields one
polygon.  The source never appends `poly` after its loop (`return g` at
src/main.go:207), so the single-clockwise-ring polygon `cwSquare`
converts to an EMPTY MultiPolygon: the code contradicts the claim. -/
theorem convertMultiPolygon_single_cw_ring_empty :
    ringOrientation (ringAt cwSquare 0) = orbCW ∧
    convertGeometry (Shape.polygon cwSquare) = Geometry.multiPolygon [] ∧
    convertMultiPolygon cwSquare = [] := by
  refine ⟨by decide, ?_, by decide⟩
  show Geometry.multiPolygon (convertMultiPolygon cwSquare) = _
  have h : convertMultiPolygon cwSquare = [] := by decide
  rw [h]

/-- Claim C2: the claim states rings `[CW A, CCW hole, CW B]` produce two
polygons `{A, [hole]}` and `{B, []}`.  The source drops the final
polygon-in-progress, so only `{A, [hole]}` is produced and polygon B is
lost: the code contradicts the claim. -/
theorem convertMultiPolygon_drops_last_polygon :
    ringOrientation (ringAt threeRings 0) = orbCW ∧
    ringOrientation (ringAt threeRings 1) = orbCCW ∧
    ringOrientation (ringAt threeRings 2) = orbCW ∧
    convertMultiPolygon threeRings = [[ringAt threeRings 0, ringAt threeRings 1]] ∧
    (convertMultiPolygon threeRings).length = 1 := by
  refine ⟨by decide, by decide, by decide, by decide, by decide⟩

/-- Claim C9: a polygon shape with zero rings (numParts = 0, empty parts
list) converts to an empty MultiPolygon. -/
theorem zero_ring_polygon_empty (s : Polygon)
    (hnp : s.numParts = 0) (hp : s.parts = []) :
    convertGeometry (Shape.polygon s) = Geometry.multiPolygon [] ∧
    convertMultiPolygon s = [] := by
  have h : convertMultiPolygon s = [] := by
    unfold convertMultiPolygon
    rw [hp]
    rfl
  exact ⟨by show Geometry.multiPolygon (convertMultiPolygon s) = _; rw [h], h⟩

/-- Witness for C9 at a concrete zero-ring polygon. -/
theorem zero_ring_polygon_empty_witness :
    convertMultiPolygon { numParts := 0, numPoints := 0, parts := [],
                          points := [] } = [] :=
  (zero_ring_polygon_empty _ rfl rfl).2

/-- Claim C3: during ring-grouping, ring 0 always becomes the tentative
outer boundary of the first polygon-in-progress, whatever its orientation
(a counter-clockwise first ring is passed through as encoded, not
rejected); every later clockwise ring closes out the polygon-in-progress
and starts a new one with itself as outer boundary; every later
non-clockwise ring is appended as a hole to the polygon-in-progress. -/
theorem ring_grouping_step_behavior (s : Polygon) (k : Nat)
    (hk : k < s.parts.length) :
    (k = 0 → scanState s 1 = ([], [ringAt s 0])) ∧
    (0 < k → ringOrientation (ringAt s k) = orbCW →
      scanState s (k + 1) =
        ((scanState s k).1 ++ [(scanState s k).2], [ringAt s k])) ∧
    (0 < k → ringOrientation (ringAt s k) ≠ orbCW →
      scanState s (k + 1) =
        ((scanState s k).1, (scanState s k).2 ++ [ringAt s k])) := by
  have hx : s.parts.get? k = some (s.parts.getD k 0) := by
    rw [List.get?_eq_getElem?, List.getElem?_eq_getElem hk,
      List.getD_eq_getElem s.parts 0 hk]
  have hstep := scanState_succ s k _ hx
  rw [polyStep_eq] at hstep
  refine ⟨?_, ?_, ?_⟩
  · intro h0
    subst h0
    rw [hstep, if_pos rfl]
    rfl
  · intro hpos hcw
    have hne : k ≠ 0 := Nat.pos_iff_ne_zero.mp hpos
    rw [hstep, if_neg hne, if_pos hcw]
  · intro hpos hncw
    have hne : k ≠ 0 := Nat.pos_iff_ne_zero.mp hpos
    rw [hstep, if_neg hne, if_neg hncw]

/-- Witness for C3: on `threeRings`, ring 1 is a counter-clockwise hole
and is appended to the polygon-in-progress. -/
theorem ring_grouping_step_behavior_witness :
    scanState threeRings 2 =
      ((scanState threeRings 1).1,
        (scanState threeRings 1).2 ++ [ringAt threeRings 1]) :=
  (ring_grouping_step_behavior threeRings 1 (by decide)).2.2
    (by decide) (by decide)

/-- Claim C10: ring membership is conserved throughout the scan — after
the first `k` rings, the rings of the finished polygons followed by the
rings of the polygon-in-progress are exactly rings `0 .. k-1` in order,
each ring being the slice of the shared point buffer between its part
boundary and the next (`ringAt`), converted pointwise. -/
theorem ring_grouping_conserves_rings (s : Polygon) (k : Nat)
    (hk : k ≤ s.parts.length) :
    (scanState s k).1.flatten ++ (scanState s k).2 =
      (List.range k).map (ringAt s) := by
  induction k with
  | zero => rfl
  | succ n ih =>
    have hn : n < s.parts.length := Nat.lt_of_succ_le hk
    have hx : s.parts.get? n = some (s.parts.getD n 0) := by
      rw [List.get?_eq_getElem?, List.getElem?_eq_getElem hn,
        List.getD_eq_getElem s.parts 0 hn]
    have hstep := scanState_succ s n _ hx
    rw [polyStep_eq] at hstep
    have ih' := ih (Nat.le_of_lt hn)
    rw [List.range_succ, List.map_append, ← ih', hstep]
    by_cases h0 : n = 0
    · rw [if_pos h0]
      simp
    · rw [if_neg h0]
      by_cases hcw : ringOrientation (ringAt s n) = orbCW
      · rw [if_pos hcw]
        simp
      · rw [if_neg hcw]
        simp

/-- Witness for C10 on the three-ring polygon after all three rings. -/
theorem ring_grouping_conserves_rings_witness :
    (scanState threeRings 3).1.flatten ++ (scanState threeRings 3).2 =
      (List.range 3).map (ringAt threeRings) :=
  ring_grouping_conserves_rings threeRings 3 (by decide)

/-! ### Line conversions -/

/-- The planar (x, y) content of a PolyLineZ, viewed as a PolyLine: same
parts, same part counts, same point buffer; the elevation array is gone. -/
def planarPart (z : PolyLineZ) : PolyLine :=
  { numParts := z.numParts, numPoints := z.numPoints,
    parts := z.parts, points := z.points }

/-- The elevation-carrying single-part converter computes exactly what
the planar one computes on the planar content. -/
theorem convertLineStringZ_planar (z : PolyLineZ) :
    convertLineStringZ z = convertLineString (planarPart z) := rfl

/-- The elevation-carrying multi-part converter computes exactly what the
planar one computes on the planar content. -/
theorem convertMultiLineStringZ_planar (z : PolyLineZ) :
    convertMultiLineStringZ z = convertMultiLineString (planarPart z) := rfl

/-- Claim C5: a single-part PolyLine or PolyLineZ converts to a
LineString whose point count equals the input point count and whose
coordinates are the input coordinates copied exactly. -/
theorem single_part_lineString_exact (s : PolyLine) (z : PolyLineZ)
    (hs : s.numParts = 1) (hz : z.numParts = 1) :
    convertGeometry (Shape.polyLine s) = Geometry.lineString (convertLineString s) ∧
    convertLineString s = s.points.map (fun p => (p.x, p.y)) ∧
    (convertLineString s).length = s.points.length ∧
    convertGeometry (Shape.polyLineZ z) = Geometry.lineString (convertLineStringZ z) ∧
    convertLineStringZ z = z.points.map (fun p => (p.x, p.y)) ∧
    (convertLineStringZ z).length = z.points.length := by
  have e1 : convertLineString s = s.points.map (fun p => (p.x, p.y)) := by
    unfold convertLineString
    rw [foldl_append_map]
    rfl
  have e2 : convertLineStringZ z = z.points.map (fun p => (p.x, p.y)) := by
    unfold convertLineStringZ
    rw [foldl_append_map]
    rfl
  refine ⟨by simp [convertGeometry, hs], e1, by rw [e1]; simp,
    by simp [convertGeometry, hz], e2, by rw [e2]; simp⟩

/-- Witness for C5 on a concrete two-point line. -/
theorem single_part_lineString_exact_witness :
    convertLineString { numParts := 1, numPoints := 2, parts := [0],
                        points := [⟨1,2⟩, ⟨3,4⟩] } =
      ([⟨1,2⟩, ⟨3,4⟩] : List ShpPoint).map (fun p => (p.x, p.y)) :=
  (single_part_lineString_exact
    { numParts := 1, numPoints := 2, parts := [0], points := [⟨1,2⟩, ⟨3,4⟩] }
    { numParts := 1, numPoints := 2, parts := [0], points := [⟨1,2⟩, ⟨3,4⟩],
      zArray := [7, 8] }
    rfl rfl).2.1

/-- Claim C6: a PolyLineZ and a PolyLine with identical parts and
identical planar point buffers convert to equal geometries — the
elevation converters emit exactly the X/Y output of their planar
counterparts, dropping elevations with no substitute (the elevation
array `z.zArray` is unconstrained here). -/
theorem polyLineZ_planar_equiv (z : PolyLineZ) (s : PolyLine)
    (h1 : s.numParts = z.numParts) (h2 : s.numPoints = z.numPoints)
    (h3 : s.parts = z.parts) (h4 : s.points = z.points) :
    convertGeometry (Shape.polyLineZ z) = convertGeometry (Shape.polyLine s) := by
  obtain ⟨np, nq, prt, pts⟩ := s
  simp only at h1 h2 h3 h4
  subst h1 h2 h3 h4
  rfl

/-- Witness for C6 on a concrete two-part shape with elevations. -/
theorem polyLineZ_planar_equiv_witness :
    convertGeometry (Shape.polyLineZ
      { numParts := 2, numPoints := 4, parts := [0, 2],
        points := [⟨0,0⟩, ⟨1,1⟩, ⟨2,2⟩, ⟨3,3⟩], zArray := [5, 6, 7, 8] }) =
    convertGeometry (Shape.polyLine
      { numParts := 2, numPoints := 4, parts := [0, 2],
        points := [⟨0,0⟩, ⟨1,1⟩, ⟨2,2⟩, ⟨3,3⟩] }) :=
  polyLineZ_planar_equiv _ _ rfl rfl rfl rfl

/-- The §3 part-index invariant for a multi-part line shape:
`parts[0] = 0`, part start indices are monotonically non-decreasing,
`numParts`/`numPoints` agree with the list lengths, and every part start
lies within the point buffer. -/
abbrev PartsInvariant (s : PolyLine) : Prop :=
  s.parts ≠ [] ∧
  s.parts.getD 0 0 = 0 ∧
  (∀ i, i < s.parts.length - 1 → s.parts.getD i 0 ≤ s.parts.getD (i + 1) 0) ∧
  s.numParts = (s.parts.length : Int) ∧
  s.numPoints = (s.points.length : Int) ∧
  ∀ p ∈ s.parts, 0 ≤ p ∧ p ≤ s.numPoints

/-- convertMultiLineString in closed form: one converted slice per part. -/
theorem convertMultiLineString_eq_map (s : PolyLine) :
    convertMultiLineString s =
      s.parts.enum.map (fun is =>
        (slicePoints s.points is.2
          (partEnd s.numParts s.numPoints s.parts is.1)).map convertPoint) := by
  unfold convertMultiLineString
  simp only [foldl_append_map, List.nil_append]

/-- Under the invariant, the slice for part `i` has exactly
`end - start` points. -/
theorem slicePoints_length_of_inv (s : PolyLine) (inv : PartsInvariant s)
    (i : Nat) (hi : i < s.parts.length) :
    (slicePoints s.points (s.parts.getD i 0)
        (partEnd s.numParts s.numPoints s.parts i)).length =
      ((partEnd s.numParts s.numPoints s.parts i) - s.parts.getD i 0).toNat := by
  obtain ⟨hne, h0, hchain, hlen, hplen, hbound⟩ := inv
  have hmem : s.parts.getD i 0 ∈ s.parts := by
    rw [List.getD_eq_getElem s.parts 0 hi]
    exact List.getElem_mem hi
  have hs0 : 0 ≤ s.parts.getD i 0 := (hbound _ hmem).1
  have hfin : s.parts.getD i 0 ≤ partEnd s.numParts s.numPoints s.parts i ∧
      partEnd s.numParts s.numPoints s.parts i ≤ s.numPoints := by
    unfold partEnd
    split
    · next h =>
      have hi1 : i + 1 < s.parts.length := by
        rw [hlen] at h
        omega
      have hmem1 : s.parts.getD (i + 1) 0 ∈ s.parts := by
        rw [List.getD_eq_getElem s.parts 0 hi1]
        exact List.getElem_mem hi1
      exact ⟨hchain i (by omega), (hbound _ hmem1).2⟩
    · exact ⟨(hbound _ hmem).2, le_refl _⟩
  unfold slicePoints
  rw [List.length_take, List.length_drop]
  omega

/-- The spec's concrete multi-part example: parts `[0,3,7]`,
`numPoints = 10`. -/
def mlsExample : PolyLine :=
  { numParts := 3, numPoints := 10, parts := [0, 3, 7],
    points := [⟨0,0⟩, ⟨1,0⟩, ⟨2,0⟩, ⟨3,0⟩, ⟨4,0⟩,
               ⟨5,0⟩, ⟨6,0⟩, ⟨7,0⟩, ⟨8,0⟩, ⟨9,0⟩] }

/-- Claim C4: a PolyLine with more than one part satisfying the §3
invariant dispatches to the multi-line converter, which splits the
shared point buffer at the part boundaries into one LineString per part,
in part order, each of length `end - start`; a PolyLineZ goes through
the identical split on its planar content; and the spec's example
(parts `[0,3,7]`, `numPoints = 10`) yields lengths 3, 4, 3. -/
theorem multiLineString_split_parts (s : PolyLine)
    (inv : PartsInvariant s) (hmulti : 1 < s.numParts) :
    convertGeometry (Shape.polyLine s) =
      Geometry.multiLineString (convertMultiLineString s) ∧
    (convertMultiLineString s).length = s.parts.length ∧
    (∀ i, i < s.parts.length →
      (convertMultiLineString s).getD i [] =
        (slicePoints s.points (s.parts.getD i 0)
          (partEnd s.numParts s.numPoints s.parts i)).map convertPoint ∧
      ((convertMultiLineString s).getD i []).length =
        ((partEnd s.numParts s.numPoints s.parts i) - s.parts.getD i 0).toNat) ∧
    (∀ z : PolyLineZ, convertMultiLineStringZ z = convertMultiLineString (planarPart z)) ∧
    (convertMultiLineString mlsExample).map List.length = [3, 4, 3] := by
  have hne1 : s.numParts ≠ 1 := by omega
  have hlen : (convertMultiLineString s).length = s.parts.length := by
    rw [convertMultiLineString_eq_map]
    simp [List.enum_length]
  refine ⟨by simp [convertGeometry, hne1, hmulti], hlen, ?_, ?_, by decide⟩
  · intro i hi
    have hi' : i < (convertMultiLineString s).length := by rw [hlen]; exact hi
    have hienum : i < s.parts.enum.length := by simp [List.enum_length, hi]
    have hget : (convertMultiLineString s).getD i [] =
        (slicePoints s.points (s.parts.getD i 0)
          (partEnd s.numParts s.numPoints s.parts i)).map convertPoint := by
      rw [List.getD_eq_getD_get?, List.get?_eq_getElem?,
        convertMultiLineString_eq_map, List.getElem?_map, List.getElem?_enum,
        List.getElem?_eq_getElem hi, List.getD_eq_getElem s.parts 0 hi]
      rfl
    refine ⟨hget, ?_⟩
    rw [hget, List.length_map]
    exact slicePoints_length_of_inv s inv i hi
  · intro z
    exact convertMultiLineStringZ_planar z

/-- Witness for C4 at the spec's example shape. -/
theorem multiLineString_split_parts_witness :
    (convertMultiLineString mlsExample).length = mlsExample.parts.length :=
  (multiLineString_split_parts mlsExample (by decide) (by decide)).2.1

/-! ### Attribute collection and properties -/

/-- The attribute loop is a `filterMap`: decoded attributes are kept in
field order, failed ones contribute nothing. -/
theorem collect_step (ra : Nat → Option Attribute) (l : List Nat)
    (acc : List Attribute) :
    l.foldl (fun acc k => match ra k with
      | some a => acc ++ [a]
      | none => acc) acc = acc ++ l.filterMap ra := by
  induction l generalizing acc with
  | nil => simp
  | cons x t ih =>
    cases h : ra x <;> simp [h, ih]

/-- collectAttrs in closed form. -/
theorem collectAttrs_eq_filterMap (ra : Nat → Option Attribute) (n : Nat) :
    collectAttrs ra n = (List.range n).filterMap ra := by
  unfold collectAttrs
  rw [collect_step]
  rfl

/-- A key is absent from the properties list iff no entry bears it. -/
theorem propLookup_eq_none_iff (k : String) (m : List (String × AttrValue)) :
    propLookup k m = none ↔ ∀ p ∈ m, p.1 ≠ k := by
  unfold propLookup
  simp [List.find?_eq_none]

/-- Map assignment under a different key does not create the key. -/
theorem insertProp_lookup_none (m : List (String × AttrValue)) (key : String)
    (v : AttrValue) (f : String) (hne : key ≠ f)
    (hm : propLookup f m = none) :
    propLookup f (insertProp m key v) = none := by
  rw [propLookup_eq_none_iff] at hm ⊢
  intro p hp
  unfold insertProp at hp
  split at hp
  · obtain ⟨q, hq, hgq⟩ := List.mem_map.mp hp
    by_cases h : q.1 = key
    · rw [if_pos h] at hgq
      rw [← hgq]
      exact hne
    · rw [if_neg h] at hgq
      rw [← hgq]
      exact hm q hq
  · rcases List.mem_append.mp hp with h | h
    · exact hm p h
    · have : p = (key, v) := by simpa using h
      rw [this]
      exact hne

/-- Folding map assignments whose keys all differ from `f` leaves `f`
absent. -/
theorem buildProps_lookup_none (attrs : List Attribute) (f : String)
    (ha : ∀ a ∈ attrs, a.name ≠ f) (m : List (String × AttrValue))
    (hm : propLookup f m = none) :
    propLookup f (attrs.foldl (fun m a => insertProp m a.name a.value) m) = none := by
  induction attrs generalizing m with
  | nil => exact hm
  | cons a t ih =>
    exact ih (fun b hb => ha b (by simp [hb])) _
      (insertProp_lookup_none m a.name a.value f (ha a (by simp)) hm)

/-- Claim C7: an attribute field that fails to decode (the lookup returns
nil) is omitted from the feature's properties — the key is not present at
all (lookup yields `none`, never a stored null) — while the geometry and
the successfully decoded attributes are converted normally: the
properties are built from exactly the decoded attributes in field
order. -/
theorem failed_attribute_omitted (shape : Shape) (ra : Nat → Option Attribute)
    (n : Nat) (f : String)
    (hf : ∀ j, j < n → ∀ a, ra j = some a → a.name ≠ f) :
    (ShapeToFeature shape (collectAttrs ra n)).properties =
      ((List.range n).filterMap ra).foldl
        (fun m a => insertProp m a.name a.value) [] ∧
    propLookup f (ShapeToFeature shape (collectAttrs ra n)).properties = none ∧
    (ShapeToFeature shape (collectAttrs ra n)).geometry = convertGeometry shape := by
  have h1 : (ShapeToFeature shape (collectAttrs ra n)).properties =
      ((List.range n).filterMap ra).foldl
        (fun m a => insertProp m a.name a.value) [] := by
    unfold ShapeToFeature
    rw [collectAttrs_eq_filterMap]
  refine ⟨h1, ?_, rfl⟩
  rw [h1]
  refine buildProps_lookup_none _ f ?_ [] rfl
  intro a ha
  obtain ⟨j, hj, hja⟩ := List.mem_filterMap.mp ha
  exact hf j (List.mem_range.mp hj) a hja

/-- The record of the spec's example: field 0 decodes to name = "A",
field 1 ("pop") fails to decode. -/
def exRead : Nat → Option Attribute := fun j =>
  if j = 0 then some ⟨"name", AttrValue.str "A"⟩ else none

/-- Witness for C7: with fields name/pop where pop fails to decode, the
key "pop" is absent from the properties. -/
theorem failed_attribute_omitted_witness :
    propLookup "pop"
      (ShapeToFeature (Shape.point ⟨0, 0⟩) (collectAttrs exRead 2)).properties =
      none :=
  (failed_attribute_omitted (Shape.point ⟨0, 0⟩) exRead 2 "pop"
    (by
      intro j hj a ha
      have hj2 : j = 0 ∨ j = 1 := by omega
      rcases hj2 with h | h <;> subst h
      · have : a = ⟨"name", AttrValue.str "A"⟩ := by
          simpa [exRead] using ha.symm
        rw [this]
        decide
      · simp [exRead] at ha)).2.1

/-! ### Output phase -/

/-- Claim C8 counterexample: in newline-delimited mode, a failure to
encode/write a feature does NOT terminate the run — the error returned by
`encoder.Encode(feature)` is discarded (src/main.go:74) and the run exits
successfully, contradicting the claim that output-sink write failures are
fatal in every output mode. -/
theorem ndjson_encode_error_ignored :
    (outputPhase "out.geojson" (Except.ok Sink.file) true false none
      (fun _ => some "disk full") 3).isFatal = false := by
  decide

/-- Claim C8 as amended: a failure to open the output sink terminates the
run fatally in every mode, and in single-collection mode a failure to
encode the collection terminates fatally; but in newline-delimited mode
per-feature encode/write failures are ignored and the run completes
normally. -/
theorem output_failure_handling_amended (outputPath : String)
    (openFileResult : Except String Sink) (nd pretty : Bool)
    (ce : Option String) (fe : Nat → Option String) (n : Nat) :
    (∀ e, getOutput outputPath openFileResult = Except.error e →
      outputPhase outputPath openFileResult nd pretty ce fe n =
        RunOutcome.fatal e) ∧
    (∀ snk, getOutput outputPath openFileResult = Except.ok snk → nd = false →
      ∀ e, ce = some e →
        outputPhase outputPath openFileResult nd pretty ce fe n =
          RunOutcome.fatal e) ∧
    (∀ snk, getOutput outputPath openFileResult = Except.ok snk → nd = true →
      outputPhase outputPath openFileResult nd pretty ce fe n =
        RunOutcome.ok) := by
  refine ⟨?_, ?_, ?_⟩
  · intro e he
    unfold outputPhase
    rw [he]
  · intro snk hsnk hnd e hce
    unfold outputPhase
    rw [hsnk, hnd, hce]
    rfl
  · intro snk hsnk hnd
    unfold outputPhase
    rw [hsnk, hnd]
    rfl

/-- Witness for the amended C8: an error opening the output file is fatal
even in newline-delimited mode. -/
theorem output_failure_handling_amended_witness :
    outputPhase "out.geojson" (Except.error "permission denied") true false
      none (fun _ => none) 0 = RunOutcome.fatal "permission denied" :=
  (output_failure_handling_amended "out.geojson"
    (Except.error "permission denied") true false none (fun _ => none) 0).1
    "permission denied" rfl
